import Mathlib

/-!
Verification of the sptoolkit provisioning engine against its specification.

Each Python function of the repository that the properties below refer to is
shallowly embedded as an executable Lean definition.  External effects
(subprocess results, downloaded bytes, file contents, log records) are made
explicit as inputs and outputs of the embedded functions, so that every
definition is a pure, computable function that mirrors the control flow of
the source line by line.
-/

namespace SPToolkit

/-! ## Process executor: `run_subprocess` (src/jhub/utils.py, lines 13-50)

The function receives the completed `subprocess.run` result (exit code plus
the merged stdout/stderr stream, since the source passes
`stdout=subprocess.PIPE, stderr=subprocess.STDOUT`).  Its observable
behaviour is the ordered list of log records it emits and whether it raises
`subprocess.CalledProcessError` (the spec's `ProcessFailed`). -/

/-- Severity of an emitted log record: `logger.debug` vs `logger.error`. -/
inductive LogLevel where
  | debug : LogLevel
  | error : LogLevel
deriving DecidableEq

/-- Result of `subprocess.run`: the exit code and the captured merged
stdout/stderr stream (already decoded). -/
structure ProcResult where
  returncode : Int
  stdout : String
deriving DecidableEq

/-- The `subprocess.CalledProcessError(cmd=cmd, returncode=...)` raised by
`run_subprocess` on a non-zero exit; the spec calls it `ProcessFailed`. -/
structure CalledProcessError where
  cmd : List String
  returncode : Int
deriving DecidableEq

namespace JhubUtils

/-- Embedding of `run_subprocess` from `src/jhub/utils.py` (lines 13-50).
Returns the emitted log records in order, and either `.ok ()` (normal
return) or `.error e` (the raised `CalledProcessError`).  The log records
are emitted before the exception propagates, which the encoding reflects by
listing them in the first component. -/
def run_subprocess (cmd : List String) (proc : ProcResult) :
    List (LogLevel × String) × Except CalledProcessError Unit :=
  let printable_command := " ".intercalate cmd
  if proc.returncode ≠ 0 then
    ([(LogLevel.error,
        "Ran " ++ printable_command ++ " with exit code " ++ toString proc.returncode),
      (LogLevel.error, proc.stdout)],
     Except.error ⟨cmd, proc.returncode⟩)
  else
    ([(LogLevel.debug,
        "Ran " ++ printable_command ++ " with exit code " ++ toString proc.returncode),
      (LogLevel.debug, proc.stdout)],
     Except.ok ())

end JhubUtils

namespace InitializeScript

/-- Embedding of `run_subprocess` from `src/initialize/initialize.py`
(lines 46-81), translated independently of the copy in `jhub/utils.py`. -/
def run_subprocess (cmd : List String) (proc : ProcResult) :
    List (LogLevel × String) × Except CalledProcessError Unit :=
  let printable_command := " ".intercalate cmd
  if proc.returncode ≠ 0 then
    ([(LogLevel.error,
        "Ran " ++ printable_command ++ " with exit code " ++ toString proc.returncode),
      (LogLevel.error, proc.stdout)],
     Except.error ⟨cmd, proc.returncode⟩)
  else
    ([(LogLevel.debug,
        "Ran " ++ printable_command ++ " with exit code " ++ toString proc.returncode),
      (LogLevel.debug, proc.stdout)],
     Except.ok ())

end InitializeScript

/-! ## Integrity-verified downloader: `download_miniconda_installer`
(src/jhub/conda.py, lines 47-65)

The context manager creates a `tempfile.NamedTemporaryFile` (deleted when
the `with` block exits on any path), writes the downloaded bytes into it,
hashes the file with `sha256_file`, raises on mismatch, and otherwise
yields the path to the caller's block.  We embed it as the ordered trace of
events it performs; the cryptographic hash itself is an external library
call and is passed in as a function from the downloaded bytes to a digest
string (`sha256_file` reads back exactly the bytes that were written, so
hashing the file equals hashing the downloaded content). -/

/-- Events performed by `download_miniconda_installer`, in order. -/
inductive DlEvent where
  | createTempFile : DlEvent
  | writeTempFile (content : List Nat) : DlEvent
  | raiseIntegrityError : DlEvent
  | yieldPath : DlEvent
  | raiseFromBlock : DlEvent
  | removeTempFile : DlEvent
deriving DecidableEq

/-- Embedding of `download_miniconda_installer` from `src/jhub/conda.py`
(lines 47-65) as its event trace.  `sha256` is the digest function,
`content` the bytes returned by `requests.get(installer_url).content`,
`sha256sum` the expected digest, and `blockRaises` says whether the
caller's `with` block raises.  `tempfile.NamedTemporaryFile` removes the
file when its context exits, on the normal path and during exception
unwinding alike, which is why every branch ends in `removeTempFile`. -/
def download_miniconda_installer (sha256 : List Nat → String) (content : List Nat)
    (sha256sum : String) (blockRaises : Bool) : List DlEvent :=
  [DlEvent.createTempFile, DlEvent.writeTempFile content] ++
    (if sha256 content ≠ sha256sum then
      [DlEvent.raiseIntegrityError, DlEvent.removeTempFile]
    else
      [DlEvent.yieldPath] ++
        (if blockRaises then [DlEvent.raiseFromBlock] else []) ++
        [DlEvent.removeTempFile])

/-! ## JSON values and `json.loads`

`ensure_conda_packages` parses the filtered conda output with Python's
`json.loads`.  We model JSON values and a recursive-descent parser for the
JSON subset the tool's outcome records use: `null`, booleans, integer
numbers, strings with the single-character escapes, arrays and objects.
Inputs outside this subset (fractional or exponent number forms, `\u`
escapes) make the parser return `none`; like `json.loads`, the parser
skips only the whitespace characters space, tab, newline and carriage
return (in particular a leading `\x00` byte is a parse error), and rejects
trailing non-whitespace ("Extra data"). -/

/-- A JSON value. -/
inductive Json where
  | null : Json
  | bool (b : Bool) : Json
  | num (n : Int) : Json
  | str (s : String) : Json
  | arr (elems : List Json) : Json
  | obj (members : List (String × Json)) : Json

/-- The whitespace characters `json.loads` skips between tokens. -/
def isJsonWs (c : Char) : Bool :=
  c = ' ' || c = '\t' || c = '\n' || c = '\r'

/-- Skip JSON whitespace. -/
def skipWs (s : List Char) : List Char := s.dropWhile isJsonWs

/-- Numeric value of an ASCII digit. -/
def digitVal (c : Char) : Nat := c.toNat - '0'.toNat

/-- Natural number denoted by a digit run. -/
def natOfDigits (ds : List Char) : Nat :=
  ds.foldl (fun a c => a * 10 + digitVal c) 0

/-- Parse a JSON number (integers only; a following `.`, `e` or `E` means a
fractional or exponent form, which is outside the modelled subset). -/
def parseNumber (s : List Char) : Option (Json × List Char) :=
  let neg := match s with | '-' :: _ => true | _ => false
  let s1 := match s with | '-' :: r => r | _ => s
  let ds := s1.takeWhile Char.isDigit
  let rest := s1.dropWhile Char.isDigit
  if ds = [] then none
  else
    match rest with
    | c :: _ =>
        if c = '.' || c = 'e' || c = 'E' then none
        else some (Json.num (if neg then -(natOfDigits ds : Int) else (natOfDigits ds : Int)), rest)
    | [] => some (Json.num (if neg then -(natOfDigits ds : Int) else (natOfDigits ds : Int)), [])

/-- Parse the body of a JSON string after the opening quote, handling the
single-character escapes. -/
def parseStringBody : Nat → List Char → List Char → Option (String × List Char)
  | 0, _, _ => none
  | _, [], _ => none
  | fuel + 1, c :: rest, acc =>
    if c = '"' then some (String.mk acc.reverse, rest)
    else if c = '\\' then
      match rest with
      | [] => none
      | e :: rest2 =>
        let esc : Option Char :=
          if e = '"' then some '"'
          else if e = '\\' then some '\\'
          else if e = '/' then some '/'
          else if e = 'n' then some '\n'
          else if e = 't' then some '\t'
          else if e = 'r' then some '\r'
          else if e = 'b' then some (Char.ofNat 8)
          else if e = 'f' then some (Char.ofNat 12)
          else none
        match esc with
        | none => none
        | some c2 => parseStringBody fuel rest2 (c2 :: acc)
    else parseStringBody fuel rest (c :: acc)

mutual

/-- Parse one JSON value, returning it and the unconsumed remainder. -/
def parseValue : Nat → List Char → Option (Json × List Char)
  | 0, _ => none
  | fuel + 1, s =>
    match skipWs s with
    | [] => none
    | c :: rest =>
      if c = 'n' then
        match rest with
        | 'u' :: 'l' :: 'l' :: r => some (Json.null, r)
        | _ => none
      else if c = 't' then
        match rest with
        | 'r' :: 'u' :: 'e' :: r => some (Json.bool true, r)
        | _ => none
      else if c = 'f' then
        match rest with
        | 'a' :: 'l' :: 's' :: 'e' :: r => some (Json.bool false, r)
        | _ => none
      else if c = '"' then
        match parseStringBody fuel rest [] with
        | some (str, r) => some (Json.str str, r)
        | none => none
      else if c = '-' || c.isDigit then parseNumber (c :: rest)
      else if c = '[' then parseArr fuel rest
      else if c = '\x7b' then parseObj fuel rest
      else none

/-- Parse the elements of an array after the opening bracket. -/
def parseArr : Nat → List Char → Option (Json × List Char)
  | 0, _ => none
  | fuel + 1, s =>
    match skipWs s with
    | ']' :: r => some (Json.arr [], r)
    | s' =>
      match parseValue fuel s' with
      | none => none
      | some (v, r) =>
        match parseArrRest fuel r with
        | none => none
        | some (vs, r2) => some (Json.arr (v :: vs), r2)

/-- Parse `, value`* `]` after the first array element. -/
def parseArrRest : Nat → List Char → Option (List Json × List Char)
  | 0, _ => none
  | fuel + 1, s =>
    match skipWs s with
    | ']' :: r => some ([], r)
    | ',' :: r =>
      match parseValue fuel r with
      | none => none
      | some (v, r2) =>
        match parseArrRest fuel r2 with
        | none => none
        | some (vs, r3) => some (v :: vs, r3)
    | _ => none

/-- Parse the members of an object after the opening brace. -/
def parseObj : Nat → List Char → Option (Json × List Char)
  | 0, _ => none
  | fuel + 1, s =>
    match skipWs s with
    | '\x7d' :: r => some (Json.obj [], r)
    | s' =>
      match parseMember fuel s' with
      | none => none
      | some (kv, r) =>
        match parseObjRest fuel r with
        | none => none
        | some (kvs, r2) => some (Json.obj (kv :: kvs), r2)

/-- Parse `, member`* `}` after the first object member. -/
def parseObjRest : Nat → List Char → Option (List (String × Json) × List Char)
  | 0, _ => none
  | fuel + 1, s =>
    match skipWs s with
    | '\x7d' :: r => some ([], r)
    | ',' :: r =>
      match parseMember fuel r with
      | none => none
      | some (kv, r2) =>
        match parseObjRest fuel r2 with
        | none => none
        | some (kvs, r3) => some (kv :: kvs, r3)
    | _ => none

/-- Parse one `"key": value` object member. -/
def parseMember : Nat → List Char → Option ((String × Json) × List Char)
  | 0, _ => none
  | fuel + 1, s =>
    match skipWs s with
    | '"' :: r =>
      match parseStringBody fuel r [] with
      | none => none
      | some (k, r2) =>
        match skipWs r2 with
        | ':' :: r3 =>
          match parseValue fuel r3 with
          | none => none
          | some (v, r4) => some ((k, v), r4)
        | _ => none
    | _ => none

end

/-- Model of `json.loads`: parse one value and require that only whitespace
follows.  The fuel `s.length + 1` suffices because every recursive descent
step first consumes at least one input character. -/
def json_loads (s : List Char) : Option Json :=
  match parseValue (s.length + 1) s with
  | some (v, rest) => if skipWs rest = [] then some v else none
  | none => none

/-! ## Environment-native package convergence: `ensure_conda_packages`
(src/jhub/conda.py, lines 97-124)

After `subprocess.check_output` succeeds (it raises `CalledProcessError`
on a non-zero exit before any parsing), the source filters the captured
stream:

    filtered_output = '\n'.join([
        l for l in raw_output.split('\n')
        if not l.lstrip('\x00').startswith('{"fetch"')
    ])
    output = json.loads(filtered_output.lstrip('\x00'))
    if 'success' in output and output['success'] == True:
        return
    fix_permissions(prefix)

The embedding records which of the four observable outcomes happens:
the propagated process failure, the `json.loads` failure, a Python
`TypeError`/`IndexError`-style failure from the `in`/indexing expression,
or a normal return together with whether `fix_permissions` ran. -/

/-- Python `str.lstrip('\x00')`: drop leading NUL bytes. -/
def pyLstripNulls (s : List Char) : List Char := s.dropWhile (fun c => c = '\x00')

/-- The structural marker of a conda progress record: the source string
literal, spelled `{"fetch"`, transcribed character by character. -/
def fetchMarker : List Char := ['\x7b', '"', 'f', 'e', 't', 'c', 'h', '"']

/-- The source's progress-line test:
`l.lstrip('\x00').startswith('{"fetch"')`. -/
def isFetchLine (l : List Char) : Bool := decide (fetchMarker <+: pyLstripNulls l)

/-- The source's line filter and rejoin:
`'\n'.join([l for l in raw_output.split('\n') if not ...])`. -/
def filtered_output (raw : List Char) : List Char :=
  ['\n'].intercalate ((raw.splitOn '\n').filter (fun l => !(isFetchLine l)))

/-- `output['success']` on a parsed JSON object: Python dict lookup, where
a duplicated key keeps the last occurrence. -/
def dictLookup (members : List (String × Json)) (k : String) : Option Json :=
  members.reverse.lookup k

/-- Python `v == True`: `True` equals itself and the numbers `1`/`1.0`. -/
def pyEqTrue : Json → Bool
  | Json.bool b => b
  | Json.num n => n = 1
  | _ => false

/-- Python-style raised exceptions other than the ones modelled
explicitly. -/
inductive PyRaise where
  | indexError : PyRaise
  | typeError : PyRaise
deriving DecidableEq

/-- Evaluation of `'success' in output and output['success'] == True` on
the parsed JSON value.  On a dict, `in` tests the keys; on a list it tests
membership and on a string substring containment, and then the subsequent
`output['success']` raises `TypeError`; on a number, boolean or `None`,
`in` itself raises `TypeError`. -/
def successTrueCheck : Json → Except PyRaise Bool
  | Json.obj ms =>
    match dictLookup ms "success" with
    | some v => Except.ok (pyEqTrue v)
    | none => Except.ok false
  | Json.arr es =>
    if es.any (fun e => match e with | Json.str s => s = "success" | _ => false) then
      Except.error PyRaise.typeError
    else Except.ok false
  | Json.str s =>
    if decide ("success".toList <:+: s.toList) then Except.error PyRaise.typeError
    else Except.ok false
  | _ => Except.error PyRaise.typeError

/-- Observable outcome of `ensure_conda_packages`: the propagated
`CalledProcessError` from `subprocess.check_output`, the `json.loads`
failure (`json.JSONDecodeError`), a raised `TypeError`, or a normal return
whose flag records whether `fix_permissions` ran. -/
inductive CondaOutcome where
  | processFailed (returncode : Int) : CondaOutcome
  | jsonDecodeError : CondaOutcome
  | pyError (e : PyRaise) : CondaOutcome
  | done (fixedPermissions : Bool) : CondaOutcome
deriving DecidableEq

/-- The parsing pipeline of `ensure_conda_packages`:
`json.loads(filtered_output.lstrip('\x00'))`. -/
def condaParsedOutcome (raw : List Char) : Option Json :=
  json_loads (pyLstripNulls (filtered_output raw))

/-- Embedding of `ensure_conda_packages` from `src/jhub/conda.py`
(lines 97-124), as a function of the exit code and captured stdout of the
`conda install --json` invocation.  On success detection
(`output['success'] == True`) the source returns immediately, so
`fix_permissions` does not run on that path; on any other parsed value it
runs `fix_permissions(prefix)` and returns. -/
def ensure_conda_packages (returncode : Int) (rawOutput : List Char) : CondaOutcome :=
  if returncode ≠ 0 then CondaOutcome.processFailed returncode
  else
    match condaParsedOutcome rawOutput with
    | none => CondaOutcome.jsonDecodeError
    | some out =>
      match successTrueCheck out with
      | Except.error e => CondaOutcome.pyError e
      | Except.ok true => CondaOutcome.done false
      | Except.ok false => CondaOutcome.done true

/-- The success/failure flag the parser extracts from a captured stream:
the value of the source's `'success' in output and output['success'] ==
True` condition, when the pipeline parses the stream and the condition
evaluates without raising. -/
def condaExtractedFlag (raw : List Char) : Option Bool :=
  match condaParsedOutcome raw with
  | none => none
  | some out =>
    match successTrueCheck out with
    | Except.ok b => some b
    | Except.error _ => none

/-- A canonical single-line outcome record `{"success": true/false}`, used
as the concrete record family in the output-parsing property. -/
def successRecord (b : Bool) : List Char :=
  ['\x7b', '"', 's', 'u', 'c', 'c', 'e', 's', 's', '"', ':', ' '] ++
    (if b then ['t', 'r', 'u', 'e'] else ['f', 'a', 'l', 's', 'e']) ++ ['\x7d']

example : condaExtractedFlag (successRecord true) = some true := by decide
example : condaExtractedFlag (successRecord false) = some false := by decide
example : ensure_conda_packages 0 (successRecord true) = CondaOutcome.done false := by decide
example : json_loads "not json".toList = none := rfl

/-! ## Environment probe: `check_miniconda_version`
(src/jhub/conda.py, lines 32-44)

The source runs `<prefix>/bin/conda -V`, takes the second whitespace-
separated word of the combined output, and compares
`distutils.version.LooseVersion` values.  `CalledProcessError` and
`FileNotFoundError` are caught and yield `False`; an output without a
second word raises `IndexError`, and a `LooseVersion` comparison that
reaches an int-vs-str component raises `TypeError` (Python 3), neither of
which the source catches.  The subprocess invocation is the function's
only interaction with the outside world, so the embedding takes the
probe's result as input and computes a pure value. -/

/-- A `LooseVersion` component: a digit run parsed by `int`, or any other
matched or unmatched run kept as a string. -/
inductive VComp where
  | num (n : Nat) : VComp
  | str (s : String) : VComp
deriving DecidableEq

/-- Lowercase ASCII letter, the `[a-z]` of `LooseVersion.component_re`. -/
def isLowerAlpha (c : Char) : Bool := 'a' ≤ c && c ≤ 'z'

/-- Character matched by no alternative of `component_re` and not `.`:
such characters form the separator runs `re.split` keeps. -/
def isVSep (c : Char) : Bool := !c.isDigit && !(isLowerAlpha c) && c ≠ '.'

/-- Embedding of `LooseVersion.parse`, with explicit fuel (each step
consumes at least one character, so `length + 1` fuel always suffices):
split into digit runs, lowercase runs and the runs in between, drop `.`,
and convert digit runs with `int`. -/
def looseParseAux : Nat → List Char → List VComp
  | 0, _ => []
  | _, [] => []
  | fuel + 1, c :: cs =>
    if c.isDigit then
      VComp.num (natOfDigits (c :: cs.takeWhile Char.isDigit)) ::
        looseParseAux fuel (cs.dropWhile Char.isDigit)
    else if isLowerAlpha c then
      VComp.str (String.mk (c :: cs.takeWhile isLowerAlpha)) ::
        looseParseAux fuel (cs.dropWhile isLowerAlpha)
    else if c = '.' then looseParseAux fuel cs
    else
      VComp.str (String.mk (c :: cs.takeWhile isVSep)) ::
        looseParseAux fuel (cs.dropWhile isVSep)

/-- `LooseVersion.parse` of a version string. -/
def looseParse (l : List Char) : List VComp := looseParseAux (l.length + 1) l

/-- Comparison of two components, as Python 3 compares list elements:
int-vs-str raises `TypeError`, modelled as `none`. -/
def vcompCmp : VComp → VComp → Option Ordering
  | VComp.num a, VComp.num b => some (compare a b)
  | VComp.str a, VComp.str b => some (compare a b)
  | _, _ => none

/-- Python list comparison of component lists: lexicographic, a strict
prefix compares smaller, and the first differing position with
incomparable types raises `TypeError` (`none`). -/
def vlistCmp : List VComp → List VComp → Option Ordering
  | [], [] => some Ordering.eq
  | [], _ :: _ => some Ordering.lt
  | _ :: _, [] => some Ordering.gt
  | a :: as, b :: bs =>
    match vcompCmp a b with
    | none => none
    | some Ordering.eq => vlistCmp as bs
    | some o => some o

/-- `LooseVersion(a) >= LooseVersion(b)`, `none` when the comparison
raises `TypeError`. -/
def looseVersionGE (a b : List Char) : Option Bool :=
  match vlistCmp (looseParse a) (looseParse b) with
  | none => none
  | some o => some (!(o == Ordering.lt))

/-- Whitespace for Python's `str.strip()` / no-argument `str.split()`. -/
def isPyWs (c : Char) : Bool :=
  c = ' ' || c = '\t' || c = '\n' || c = '\r' || c = '\x0b' || c = '\x0c'

/-- Python `str.strip()`. -/
def pyStrip (l : List Char) : List Char :=
  ((l.dropWhile isPyWs).reverse.dropWhile isPyWs).reverse

/-- Python no-argument `str.split()`: split on whitespace runs, discarding
empty pieces. -/
def pySplitWs (l : List Char) : List (List Char) :=
  (l.splitOnP isPyWs).filter (fun p => p ≠ [])

/-- The version word the probe extracts:
`output.decode().strip().split()[1]`. -/
def reportedVersion (out : String) : Option (List Char) :=
  (pySplitWs (pyStrip out.toList))[1]?

/-- Result of running `<prefix>/bin/conda -V`: binary absent
(`FileNotFoundError`), non-zero exit (`CalledProcessError`), or the
combined captured output of a successful run. -/
inductive CondaProbe where
  | missing : CondaProbe
  | procFails (returncode : Int) (output : String) : CondaProbe
  | outputs (s : String) : CondaProbe
deriving DecidableEq

/-- Embedding of `check_miniconda_version` from `src/jhub/conda.py`
(lines 32-44): the two caught exception classes return `False`; otherwise
the second output word is compared against `version` as `LooseVersion`s.
An `IndexError` (no second word) or `TypeError` (mixed-type comparison)
propagates, which `Except.error` records. -/
def check_miniconda_version (probe : CondaProbe) (version : String) :
    Except PyRaise Bool :=
  match probe with
  | CondaProbe.missing => Except.ok false
  | CondaProbe.procFails _ _ => Except.ok false
  | CondaProbe.outputs s =>
    match reportedVersion s with
    | none => Except.error PyRaise.indexError
    | some v =>
      match looseVersionGE v version.toList with
      | none => Except.error PyRaise.typeError
      | some b => Except.ok b

example : check_miniconda_version (CondaProbe.outputs "conda 4.8.1\n") "4.8" =
    Except.ok true := rfl
example : check_miniconda_version (CondaProbe.outputs "conda 4.7.0\n") "4.8" =
    Except.ok false := rfl
example : check_miniconda_version (CondaProbe.outputs "garbage") "4.8" =
    Except.error PyRaise.indexError := rfl

/-! ## System source manager: `add_source` (src/jhub/apt.py, lines 24-39)

The source reads the distribution codename, opens
`/etc/apt/sources.list.d/<name>.list` in `a+` mode, reads the whole file,
and only when the canonical `deb` line is not a substring of the contents
appends the line (in `a+` mode every write lands at the end of the file;
the `f.truncate()` at the then-current end-of-file position is a no-op)
and runs `apt-get update`.  The embedding is a function from the file's
prior contents to its new contents plus whether the refresh ran. -/

/-- The canonical repository line `f'deb {source_url} {distro} {section}\n'`. -/
def aptSourceLine (sourceUrl codename sect : List Char) : List Char :=
  'd' :: 'e' :: 'b' :: ' ' :: (sourceUrl ++ ' ' :: (codename ++ ' ' :: (sect ++ ['\n'])))

/-- Embedding of `add_source` from `src/jhub/apt.py` (lines 24-39): the
new file contents and whether a line was appended (equivalently, whether
the `apt-get update` refresh was triggered, which the source runs in the
same conditional branch). -/
def add_source (sourceUrl codename sect : List Char) (fileContent : List Char) :
    List Char × Bool :=
  let line := aptSourceLine sourceUrl codename sect
  if line <:+: fileContent then (fileContent, false)
  else (fileContent ++ line, true)

/-- Number of positions at which `pat` occurs in `hay` (counting the
occurrences of the full canonical line, including its trailing newline). -/
def countOccurrences (pat hay : List Char) : Nat :=
  ((Finset.range (hay.length + 1)).filter (fun i => pat <+: hay.drop i)).card

example :
    add_source "https://pkg.example/repo".toList "bionic".toList "main".toList [] =
      ("deb https://pkg.example/repo bionic main\n".toList, true) := by decide
example :
    countOccurrences "ab\n".toList "ab\nab\n".toList = 2 := by decide

/-! ## Hook aggregation (src/jhub/hooks.py, lines 14-45; src/jhub/utils.py,
lines 53-62) -/

/-- Modelled from the spec: the aggregation of the values returned by a
list-returning hook such as `jhub_extra_user_conda_packages`.  The code
that invokes the hook and combines the per-extension lists lives in the
orchestrator (`jhub.installer`), which is not among the sources; only the
hook declarations (`src/jhub/hooks.py`) and the plugin-manager
construction (`src/jhub/utils.py`, `get_plugin_manager`) are.  Per spec
§4.6, the results from every discovered extension are concatenated,
order-preserving by discovery order, duplicates permitted. -/
def aggregate_hook_results (results : List (List String)) : List String :=
  results.flatten

/-! ## Claim theorems -/

/-- C10: the `run_subprocess` function of `jhub/utils.py` and the
`run_subprocess` function of `initialize/initialize.py` are extensionally
equal — for every command and subprocess result they emit identical log
records and produce the same normal return or the same raised
`CalledProcessError` with the same exit code. -/
theorem run_subprocess_copies_agree (cmd : List String) (proc : ProcResult) :
    JhubUtils.run_subprocess cmd proc = InitializeScript.run_subprocess cmd proc := rfl

/-- C8: the results of a list-returning hook are concatenated preserving
discovery order with duplicates permitted; three extensions returning
`[a]`, `[]`, `[b, c]` in discovery order aggregate to `[a, b, c]`. -/
theorem hook_aggregation_order (a b c : String) :
    aggregate_hook_results [[a], [], [b, c]] = [a, b, c] := rfl

/-- C1: for every digest function, downloaded content and expected digest,
`download_miniconda_installer` creates exactly one temporary file and
removes it on every exit path (its removal is the final event, whether the
digest check fails, the caller's block raises, or everything succeeds);
it raises the integrity error exactly when the computed digest differs
from the expected one, and yields the installer path to the caller's
scoped block exactly when the digests agree. -/
theorem download_miniconda_installer_integrity (sha256 : List Nat → String)
    (content : List Nat) (sha256sum : String) (blockRaises : Bool) :
    (download_miniconda_installer sha256 content sha256sum blockRaises).count
        DlEvent.createTempFile = 1 ∧
    (download_miniconda_installer sha256 content sha256sum blockRaises).count
        DlEvent.removeTempFile = 1 ∧
    (download_miniconda_installer sha256 content sha256sum blockRaises).getLast? =
        some DlEvent.removeTempFile ∧
    (DlEvent.raiseIntegrityError ∈
        download_miniconda_installer sha256 content sha256sum blockRaises ↔
      sha256 content ≠ sha256sum) ∧
    (DlEvent.yieldPath ∈
        download_miniconda_installer sha256 content sha256sum blockRaises ↔
      sha256 content = sha256sum) := by
  by_cases h : sha256 content = sha256sum <;>
    cases blockRaises <;>
      simp [download_miniconda_installer, h]

/-- C2: `run_subprocess` raises `CalledProcessError` carrying the
command's exit code exactly when the exit code is non-zero; on non-zero
exit it logs the run header and the full captured stream at error
severity (before the raise, which the trailing result component models),
and on zero exit it logs both records only at debug severity. -/
theorem run_subprocess_exit_semantics (cmd : List String) (proc : ProcResult) :
    ((JhubUtils.run_subprocess cmd proc).2 =
        Except.error ⟨cmd, proc.returncode⟩ ↔ proc.returncode ≠ 0) ∧
    (proc.returncode ≠ 0 →
      (JhubUtils.run_subprocess cmd proc).1 =
        [(LogLevel.error,
            "Ran " ++ " ".intercalate cmd ++ " with exit code " ++
              toString proc.returncode),
         (LogLevel.error, proc.stdout)]) ∧
    (proc.returncode = 0 →
      (JhubUtils.run_subprocess cmd proc).1 =
        [(LogLevel.debug,
            "Ran " ++ " ".intercalate cmd ++ " with exit code " ++
              toString proc.returncode),
         (LogLevel.debug, proc.stdout)]) := by
  by_cases h : proc.returncode = 0 <;>
    simp [JhubUtils.run_subprocess, h]

/-- Witness for C2 at concrete inputs: a command exiting 1 logs both
records at error severity and raises with exit code 1, and a command
exiting 0 logs both records at debug severity. -/
theorem run_subprocess_exit_semantics_witness :
    (JhubUtils.run_subprocess ["apt-get", "update"] ⟨1, "boom"⟩).1 =
      [(LogLevel.error, "Ran apt-get update with exit code 1"),
       (LogLevel.error, "boom")] ∧
    (JhubUtils.run_subprocess ["true"] ⟨0, "fine"⟩).1 =
      [(LogLevel.debug, "Ran true with exit code 0"),
       (LogLevel.debug, "fine")] :=
  ⟨(run_subprocess_exit_semantics ["apt-get", "update"] ⟨1, "boom"⟩).2.1 (by decide),
   (run_subprocess_exit_semantics ["true"] ⟨0, "fine"⟩).2.2 (by decide)⟩

/-- C3 (code bug, evaluation at the failing input): on a zero exit whose
captured output is the single outcome record with `"success": true`,
`ensure_conda_packages` returns before the `fix_permissions(prefix)` call
— the detected-success path skips the ownership/permission normalization
the claim (and `fix_permissions`'s own docstring, "This is run after each
install command") requires. -/
theorem ensure_conda_packages_success_skips_normalization :
    ensure_conda_packages 0 (successRecord true) = CondaOutcome.done false := by decide

/-- C4 counterexample: a captured stream whose remaining content is a
parseable JSON record *without* an authoritative `success` field does not
make `ensure_conda_packages` fail with a parse error — the function
returns normally (running `fix_permissions` on the way out), refuting the
claim that any such shape fails with `ParseError`. -/
theorem ensure_conda_packages_missing_success_no_error :
    ensure_conda_packages 0 "\x7b\"ok\": true\x7d".toList = CondaOutcome.done true := by
  decide

/-- C4 amended: only when the remaining content fails to parse as JSON at
all does `ensure_conda_packages` fail with the JSON decode error, an error
distinct from the process failure raised on a non-zero tool exit; a
parseable record lacking a `success` field is not an error — the function
runs `fix_permissions` and returns normally. -/
theorem ensure_conda_packages_error_classification (returncode : Int)
    (rawOutput : List Char) :
    (returncode = 0 → condaParsedOutcome rawOutput = none →
      ensure_conda_packages returncode rawOutput = CondaOutcome.jsonDecodeError) ∧
    (returncode ≠ 0 →
      ensure_conda_packages returncode rawOutput = CondaOutcome.processFailed returncode) ∧
    (∀ c : Int, CondaOutcome.jsonDecodeError ≠ CondaOutcome.processFailed c) ∧
    (returncode = 0 → ∀ ms, condaParsedOutcome rawOutput = some (Json.obj ms) →
      dictLookup ms "success" = none →
      ensure_conda_packages returncode rawOutput = CondaOutcome.done true) := by
  refine ⟨?_, ?_, ?_, ?_⟩
  · intro h0 hp
    simp [ensure_conda_packages, h0, hp]
  · intro hne
    simp [ensure_conda_packages, hne]
  · intro c h
    exact CondaOutcome.noConfusion h
  · intro h0 ms hp hs
    simp [ensure_conda_packages, h0, hp, successTrueCheck, hs]

/-- Witness for C4's amended theorem at concrete inputs: unparseable
captured output yields the JSON decode error, and a non-zero exit yields
the process failure carrying the exit code. -/
theorem ensure_conda_packages_error_classification_witness :
    ensure_conda_packages 0 "not json".toList = CondaOutcome.jsonDecodeError ∧
    ensure_conda_packages 2 "irrelevant".toList = CondaOutcome.processFailed 2 :=
  ⟨(ensure_conda_packages_error_classification 0 "not json".toList).1 rfl rfl,
   (ensure_conda_packages_error_classification 2 "irrelevant".toList).2.1 (by decide)⟩

/-- C7: `check_miniconda_version` returns true exactly when the probe of
the environment binary at the prefix produced output whose reported
version word compares `LooseVersion`-greater-or-equal to `min_version`;
probing a prefix where the binary is missing (`FileNotFoundError`) or the
environment is corrupt (`conda -V` exits non-zero, `CalledProcessError`)
never raises and returns false.  The embedded function consumes only the
probe's result — the source performs no other effect (no network access,
no reinstall) on any path. -/
theorem check_miniconda_version_semantics (version : String) :
    check_miniconda_version CondaProbe.missing version = Except.ok false ∧
    (∀ (rc : Int) (out : String),
      check_miniconda_version (CondaProbe.procFails rc out) version = Except.ok false) ∧
    (∀ probe : CondaProbe,
      check_miniconda_version probe version = Except.ok true ↔
        ∃ s v, probe = CondaProbe.outputs s ∧ reportedVersion s = some v ∧
          looseVersionGE v version.toList = some true) := by
  refine ⟨rfl, fun _ _ => rfl, ?_⟩
  intro probe
  cases probe with
  | missing => simp [check_miniconda_version]
  | procFails rc out => simp [check_miniconda_version]
  | outputs s =>
    cases h : reportedVersion s with
    | none => simp [check_miniconda_version, h]
    | some v =>
      cases hg : looseVersionGE v version.toList with
      | none =>
        have hg' : looseVersionGE v version.data = none := hg
        simp [check_miniconda_version, h, hg, hg']
      | some b =>
        have hg' : looseVersionGE v version.data = some b := hg
        simp [check_miniconda_version, h, hg, hg']

/-- Witness for C7 at concrete inputs: an installed conda reporting
version 4.8.1 satisfies `min_version = "4.8"` (no binder remains; the
biconditional is instantiated with the reported word 4.8.1). -/
theorem check_miniconda_version_semantics_witness :
    check_miniconda_version (CondaProbe.outputs "conda 4.8.1\n") "4.8" =
      Except.ok true :=
  ((check_miniconda_version_semantics "4.8").2.2
      (CondaProbe.outputs "conda 4.8.1\n")).mpr
    ⟨"conda 4.8.1\n", "4.8.1".toList, rfl, by decide, by decide⟩

/-- Stripping leading NUL bytes ignores an all-NUL prefix. -/
lemma pyLstripNulls_nulls_append (nulls l : List Char)
    (h : ∀ c ∈ nulls, c = '\x00') :
    pyLstripNulls (nulls ++ l) = pyLstripNulls l := by
  induction nulls with
  | nil => rfl
  | cons c cs ih =>
    have hc : c = '\x00' := h c (List.mem_cons_self c cs)
    have hcs : ∀ d ∈ cs, d = '\x00' := fun d hd => h d (List.mem_cons_of_mem c hd)
    subst hc
    simp only [pyLstripNulls, List.cons_append, List.dropWhile_cons] at *
    simpa using ih hcs

/-- The canonical outcome record starts with `{`, so NUL-stripping leaves
it unchanged. -/
lemma pyLstripNulls_successRecord (b : Bool) :
    pyLstripNulls (successRecord b) = successRecord b := by
  cases b <;> decide

/-- The canonical outcome record is not a progress line, even behind stray
NUL bytes: its marker is `{"success"`, not `{"fetch"`. -/
lemma isFetchLine_successRecord (nulls : List Char)
    (h : ∀ c ∈ nulls, c = '\x00') :
    isFetchLine (nulls ++ successRecord b) = false := by
  unfold isFetchLine
  rw [pyLstripNulls_nulls_append nulls (successRecord b) h,
    pyLstripNulls_successRecord]
  cases b <;> decide

/-- C5: for every captured stream made of progress lines — each detected by
the structural marker at the start of the line, possibly behind stray NUL
bytes — followed by exactly one trailing outcome record (itself possibly
behind stray NUL bytes), the parsing pipeline of `ensure_conda_packages`
strips the leading control bytes, discards every progress line, and
extracts exactly the record's success/failure flag. -/
theorem conda_parser_extracts_flag (ps : List (List Char)) (nulls : List Char)
    (b : Bool)
    (hps : ∀ p ∈ ps, isFetchLine p = true ∧ '\n' ∉ p)
    (hnulls : ∀ c ∈ nulls, c = '\x00') :
    condaExtractedFlag
        (['\n'].intercalate (ps ++ [nulls ++ successRecord b])) = some b := by
  have hnlRec : '\n' ∉ successRecord b := by cases b <;> decide
  have hnlLast : '\n' ∉ nulls ++ successRecord b := by
    intro hmem
    rcases List.mem_append.1 hmem with hmem | hmem
    · exact absurd (hnulls _ hmem) (by decide)
    · exact hnlRec hmem
  have hsplit :
      (['\n'].intercalate (ps ++ [nulls ++ successRecord b])).splitOn '\n' =
        ps ++ [nulls ++ successRecord b] := by
    refine List.splitOn_intercalate _ '\n' ?_ (by simp)
    intro l hl
    rcases List.mem_append.1 hl with hl | hl
    · exact (hps l hl).2
    · rcases List.mem_singleton.1 hl with rfl
      exact hnlLast
  have hfilter :
      (ps ++ [nulls ++ successRecord b]).filter (fun l => !(isFetchLine l)) =
        [nulls ++ successRecord b] := by
    rw [List.filter_append]
    have h1 : ps.filter (fun l => !(isFetchLine l)) = [] := by
      refine List.filter_eq_nil_iff.2 ?_
      intro p hp
      simp [(hps p hp).1]
    rw [h1]
    simp [isFetchLine_successRecord nulls hnulls]
  unfold condaExtractedFlag condaParsedOutcome filtered_output
  rw [hsplit, hfilter]
  have hsingle :
      List.intercalate ['\n'] [nulls ++ successRecord b] =
        nulls ++ successRecord b := by
    simp [List.intercalate]
  rw [hsingle, pyLstripNulls_nulls_append nulls (successRecord b) hnulls,
    pyLstripNulls_successRecord]
  cases b <;> decide

/-- Witness for C5 at a concrete stream: two marker-detected progress
lines, one of them behind a stray NUL byte, and one trailing
`{"success": true}` record behind a stray NUL byte parse to the success
flag `true`. -/
theorem conda_parser_extracts_flag_witness :
    condaExtractedFlag
        (['\n'].intercalate
          [('\x7b' :: "\"fetch\": \"pkg-1\"\x7d".toList),
           ('\x00' :: '\x7b' :: "\"fetch\": \"pkg-2\"\x7d".toList),
           ('\x00' :: successRecord true)]) = some true := by
  have h := conda_parser_extracts_flag
    [('\x7b' :: "\"fetch\": \"pkg-1\"\x7d".toList),
     ('\x00' :: '\x7b' :: "\"fetch\": \"pkg-2\"\x7d".toList)]
    ['\x00'] true (by decide) (by decide)
  simpa using h

/-- The canonical line occurs at exactly one position in `content ++ line`
when it does not occur in `content`: the line's only newline is its last
character, so it has no nonempty proper border and no occurrence can
straddle the append boundary. -/
lemma line_occursAt_append_iff (line content body : List Char)
    (hline : line = body ++ ['\n']) (hbody : '\n' ∉ body)
    (h0 : ¬ line <:+: content) (i : Nat) :
    line <+: (content ++ line).drop i ↔ i = content.length := by
  constructor
  · intro hpre
    by_contra hne
    rcases Nat.lt_or_ge i content.length with hlt | hge
    · have hdrop : (content ++ line).drop i = content.drop i ++ line := by
        rw [List.drop_append_eq_append_drop, Nat.sub_eq_zero_of_le (le_of_lt hlt),
          List.drop_zero]
      rw [hdrop] at hpre
      have htsuf : content.drop i <:+ content := List.drop_suffix i content
      have htlen : (content.drop i).length = content.length - i := List.length_drop i content
      rcases le_or_lt line.length (content.drop i).length with hle | hgt
      · have htake : (content.drop i ++ line).take line.length = line := by
          obtain ⟨w, hw⟩ := hpre
          rw [← hw]
          exact List.take_left line w
        rw [List.take_append_eq_append_take, Nat.sub_eq_zero_of_le hle, List.take_zero,
          List.append_nil] at htake
        have hlt2 : line <+: content.drop i :=
          ⟨(content.drop i).drop line.length, by
            nth_rewrite 1 [← htake]
            exact List.take_append_drop _ _⟩
        exact h0 (hlt2.isInfix.trans htsuf.isInfix)
      · obtain ⟨w, hw⟩ := hpre
        have hwlen : w.length = (content.drop i).length := by
          have hl := congrArg List.length hw
          simp only [List.length_append] at hl
          omega
        have hlineLen : line.length = body.length + 1 := by rw [hline]; simp
        have htpos : 0 < (content.drop i).length := by omega
        have hw2 : w = line.drop (line.length - (content.drop i).length) := by
          have h1 : (line ++ w).drop line.length = w := List.drop_left line w
          rw [hw, List.drop_append_eq_append_drop,
            List.drop_eq_nil_of_le (le_of_lt hgt)] at h1
          simpa using h1.symm
        have ht2 : content.drop i = line.take (content.drop i).length := by
          have h1 : (content.drop i ++ line).take (content.drop i).length =
              content.drop i := List.take_left _ line
          rw [← hw, List.take_append_eq_append_take,
            Nat.sub_eq_zero_of_le (le_of_lt hgt), List.take_zero,
            List.append_nil] at h1
          exact h1.symm
        have hnt : ('\n' : Char) ∉ content.drop i := by
          rw [ht2, hline]
          intro hmem
          have hlen2 : (content.drop i).length ≤ body.length := by omega
          rw [List.take_append_eq_append_take, Nat.sub_eq_zero_of_le hlen2,
            List.take_zero, List.append_nil] at hmem
          exact hbody (List.mem_of_mem_take hmem)
        have htpos2 : 0 < content.length - i := htlen ▸ htpos
        have hnw : ('\n' : Char) ∈ w := by
          rw [hw2, hline]
          have h4 : (body ++ ['\n']).length - (content.drop i).length - body.length = 0 := by
            simp only [List.length_append, List.length_singleton, htlen]
            omega
          rw [List.drop_append_eq_append_drop, h4]
          simp
        have hcnt := congrArg (List.count '\n') hw
        rw [List.count_append, List.count_append] at hcnt
        have hct : List.count '\n' (content.drop i) = 0 := List.count_eq_zero.2 hnt
        have hcw : List.count '\n' w = 0 := by omega
        exact (List.count_eq_zero.1 hcw) hnw
    · have hgt : content.length < i := lt_of_le_of_ne hge (Ne.symm hne)
      have hlen := hpre.length_le
      rw [List.length_drop, List.length_append] at hlen
      have hlpos : 0 < line.length := by rw [hline]; simp
      omega
  · rintro rfl
    rw [List.drop_left]

/-- Appending the canonical line to a content that does not contain it
yields exactly one occurrence. -/
lemma countOccurrences_append_self (line content body : List Char)
    (hline : line = body ++ ['\n']) (hbody : '\n' ∉ body)
    (h0 : ¬ line <:+: content) :
    countOccurrences line (content ++ line) = 1 := by
  unfold countOccurrences
  have heq : (Finset.range ((content ++ line).length + 1)).filter
        (fun i => line <+: (content ++ line).drop i) =
      (Finset.range ((content ++ line).length + 1)).filter
        (fun i => i = content.length) :=
    Finset.filter_congr fun i _ =>
      line_occursAt_append_iff line content body hline hbody h0 i
  rw [heq, Finset.filter_eq']
  rw [if_pos]
  · exact Finset.card_singleton _
  · rw [Finset.mem_range, List.length_append]
    omega

/-- The canonical line is its newline-free body followed by a newline. -/
lemma aptSourceLine_body (u cod sec : List Char) :
    aptSourceLine u cod sec =
      ('d' :: 'e' :: 'b' :: ' ' :: (u ++ ' ' :: (cod ++ ' ' :: sec))) ++ ['\n'] := by
  simp [aptSourceLine]

/-- The body of the canonical line contains no newline when the url,
codename and section contain none. -/
lemma aptSourceLine_body_no_newline (u cod sec : List Char)
    (hu : '\n' ∉ u) (hc : '\n' ∉ cod) (hs : '\n' ∉ sec) :
    ('\n' : Char) ∉ 'd' :: 'e' :: 'b' :: ' ' :: (u ++ ' ' :: (cod ++ ' ' :: sec)) := by
  intro h
  simp only [List.mem_cons, List.mem_append] at h
  rcases h with h | h | h | h | h | h | h | h | h
  · exact absurd h (by decide)
  · exact absurd h (by decide)
  · exact absurd h (by decide)
  · exact absurd h (by decide)
  · exact hu h
  · exact absurd h (by decide)
  · exact hc h
  · exact absurd h (by decide)
  · exact hs h

/-- C6: calling `add_source` twice with identical url, codename and
section, starting from a file that does not yet contain the canonical
line, appends the line on the first call only (so the repository metadata
refresh is triggered exactly on the first call and not on the second) and
leaves exactly one occurrence of the canonical line in the file. -/
theorem add_source_deduplicates (u cod sec content : List Char)
    (hu : '\n' ∉ u) (hc : '\n' ∉ cod) (hs : '\n' ∉ sec)
    (h0 : ¬ aptSourceLine u cod sec <:+: content) :
    (add_source u cod sec content).2 = true ∧
    (add_source u cod sec (add_source u cod sec content).1).2 = false ∧
    countOccurrences (aptSourceLine u cod sec)
      (add_source u cod sec (add_source u cod sec content).1).1 = 1 := by
  have h1 : add_source u cod sec content = (content ++ aptSourceLine u cod sec, true) := by
    unfold add_source
    rw [if_neg h0]
  have hsuf : aptSourceLine u cod sec <:+: content ++ aptSourceLine u cod sec :=
    (List.suffix_append content _).isInfix
  have h2 : add_source u cod sec (content ++ aptSourceLine u cod sec) =
      (content ++ aptSourceLine u cod sec, false) := by
    unfold add_source
    rw [if_pos hsuf]
  rw [h1]
  rw [h2]
  refine ⟨rfl, rfl, ?_⟩
  exact countOccurrences_append_self _ content _ (aptSourceLine_body u cod sec)
    (aptSourceLine_body_no_newline u cod sec hu hc hs) h0

/-- Witness for C6 at concrete inputs: adding the example source twice to
an initially empty file leaves exactly one canonical line, refreshes on
the first call and does not refresh on the second. -/
theorem add_source_deduplicates_witness :
    (add_source "https://pkg.example/repo".toList "bionic".toList "main".toList []).2 =
        true ∧
    (add_source "https://pkg.example/repo".toList "bionic".toList "main".toList
        (add_source "https://pkg.example/repo".toList "bionic".toList "main".toList
          []).1).2 = false ∧
    countOccurrences
        (aptSourceLine "https://pkg.example/repo".toList "bionic".toList "main".toList)
        (add_source "https://pkg.example/repo".toList "bionic".toList "main".toList
          (add_source "https://pkg.example/repo".toList "bionic".toList "main".toList
            []).1).1 = 1 :=
  add_source_deduplicates "https://pkg.example/repo".toList "bionic".toList
    "main".toList [] (by decide) (by decide) (by decide) (by decide)

/-- C9: `add_source` is additive only — the prior file contents are always
a prefix of the new contents (nothing is removed or overwritten), the new
contents are either unchanged or the prior contents with exactly the one
canonical line appended — and on an empty file it appends exactly the one
canonical line `deb {url} {codename} {section}` followed by a newline,
triggering the refresh. -/
theorem add_source_additive (u cod sec content : List Char) :
    content <+: (add_source u cod sec content).1 ∧
    ((add_source u cod sec content).1 = content ∨
      (add_source u cod sec content).1 = content ++ aptSourceLine u cod sec) ∧
    (add_source u cod sec []).1 = aptSourceLine u cod sec ∧
    (add_source u cod sec []).2 = true := by
  have hnil : ¬ aptSourceLine u cod sec <:+: ([] : List Char) := by
    intro h
    have hl := h.length_le
    simp [aptSourceLine] at hl
  have hempty : add_source u cod sec [] = (aptSourceLine u cod sec, true) := by
    unfold add_source
    rw [if_neg hnil]
    simp
  refine ⟨?_, ?_, by rw [hempty], by rw [hempty]⟩
  · simp only [add_source]
    split
    · exact List.prefix_rfl
    · exact ⟨aptSourceLine u cod sec, rfl⟩
  · simp only [add_source]
    split
    · exact Or.inl rfl
    · exact Or.inr rfl

/-- Witness for C1 at concrete inputs: with a digest function returning
`"good"` on the downloaded bytes and an expected digest `"bad"`, the
integrity failure is raised and the single temporary file is still removed
last. -/
theorem download_miniconda_installer_integrity_witness :
    (DlEvent.raiseIntegrityError ∈
        download_miniconda_installer (fun _ => "good") [1, 2, 3] "bad" false) ∧
    (download_miniconda_installer (fun _ => "good") [1, 2, 3] "bad" false).count
        DlEvent.removeTempFile = 1 :=
  ⟨(download_miniconda_installer_integrity (fun _ => "good") [1, 2, 3] "bad"
        false).2.2.2.1.mpr (by decide),
   (download_miniconda_installer_integrity (fun _ => "good") [1, 2, 3] "bad"
        false).2.1⟩

/-- Witness for C9 at concrete inputs: adding the example source to a file
already holding an unrelated line keeps that content as a prefix, and on
an empty file produces exactly the canonical line. -/
theorem add_source_additive_witness :
    "# comment\n".toList <+:
      (add_source "https://pkg.example/repo".toList "bionic".toList "main".toList
        "# comment\n".toList).1 ∧
    (add_source "https://pkg.example/repo".toList "bionic".toList "main".toList []).1 =
      "deb https://pkg.example/repo bionic main\n".toList :=
  ⟨(add_source_additive "https://pkg.example/repo".toList "bionic".toList
      "main".toList "# comment\n".toList).1,
   ((add_source_additive "https://pkg.example/repo".toList "bionic".toList
      "main".toList []).2.2.1).trans (by decide)⟩

end SPToolkit
